import Mathlib

/-!
Verification of the message-lifecycle core of the chat-app backend.

The development shallowly embeds:
* `src/utils/security.js` — `encryptMessage` / `decryptMessage` (AES-256-GCM
  wrappers; the cipher internals live in Node's `crypto` library and are
  modelled from the spec as an ideal AEAD),
* `src/unnamed/part_012` — the Message model (`markAsRead`, `softDelete`),
* `src/unnamed/part_007` — the message routes (direct/group send, direct/group
  fetch, delete) and the self-destruct sweep
  (`cleanupSelfDestructingMessages`), together with the schema cast that
  `message.save()` applies on persist.

Byte strings (hex-decoded buffers, UTF-8 text) are `List Nat`; instants
(`Date.now()`, `Date` values) are `Nat`; Mongo object ids are `Nat`.
Randomness (fresh initialization vectors) and the clock are passed as
explicit arguments.  Possibly-`undefined` JavaScript values are `Option`.
-/

namespace ChatApp

/-- Decidable equality for `Except`, used to evaluate route results on
concrete inputs. -/
instance {ε α : Type} [DecidableEq ε] [DecidableEq α] :
    DecidableEq (Except ε α) := fun x y =>
  match x, y with
  | .ok a, .ok b =>
    if h : a = b then isTrue (by rw [h])
    else isFalse (by intro hc; injection hc with h2; exact h h2)
  | .error a, .error b =>
    if h : a = b then isTrue (by rw [h])
    else isFalse (by intro hc; injection hc with h2; exact h h2)
  | .ok _, .error _ => isFalse (by intro hc; exact Except.noConfusion hc)
  | .error _, .ok _ => isFalse (by intro hc; exact Except.noConfusion hc)

/-- Error raised by the cryptographic layer (`CryptoError` in the spec):
either a malformed/missing input (Node throws a `TypeError` when a field
such as the iv or auth tag is `undefined`) or an authentication failure
(`decipher.final` throws when the GCM tag does not verify). -/
inductive CryptoError where
  | invalidInput
  | authFailed
  deriving DecidableEq, Repr

/-- Modelled from the spec: the AES-256-GCM keystream.  The cipher itself is
Node's `crypto` library (`createCipheriv('aes-256-gcm', ...)`), outside this
repository; the spec requires only "a 256-bit authenticated symmetric
cipher", so the stream is an ideal stream cipher — the exact byte mixing is
irrelevant to every verified property. -/
def keyStream (key iv : List Nat) (n : Nat) : List Nat :=
  (List.range n).map (fun i => (key.sum * 131 + iv.sum * 257 + i * 31 + 7) % 256)

/-- GCM encryption body: plaintext XOR keystream (`cipher.update`/`final`). -/
def gcmEncrypt (key iv msg : List Nat) : List Nat :=
  List.zipWith (· ^^^ ·) msg (keyStream key iv msg.length)

/-- GCM decryption body: ciphertext XOR keystream (`decipher.update`/`final`). -/
def gcmDecrypt (key iv ct : List Nat) : List Nat :=
  List.zipWith (· ^^^ ·) ct (keyStream key iv ct.length)

/-- Modelled from the spec: the GCM authentication tag (`cipher.getAuthTag`),
produced inside Node's `crypto` library.  The spec mandates an AEAD whose
tag detects any modification of the ciphertext, so the tag is an ideal MAC:
for a fixed key and iv it determines the ciphertext injectively. -/
def gmac (key iv ct : List Nat) : List Nat :=
  key ++ iv ++ ct

/-- One entry of a group message's `encryptedContent` array
(`{ userId, encrypted }` in `router.post('/group/:groupId')`). -/
structure GroupEntry where
  userId : Nat
  encrypted : List Nat
  deriving DecidableEq, Repr

/-- The JavaScript value stored in a message's `encryptedContent` field:
a hex string for a direct message, an array of per-member entries for a
group message. -/
inductive EncContent where
  | str (bytes : List Nat)
  | arr (entries : List GroupEntry)
  deriving DecidableEq, Repr

/-- The record returned by `encryptMessage` in `src/utils/security.js`:
`{ iv, encrypted, authTag }`, each a hex string (here: its decoded bytes). -/
structure EncryptedData where
  iv : List Nat
  encrypted : List Nat
  authTag : List Nat
  deriving DecidableEq, Repr

/-- The (untyped) object handed to `decryptMessage`.  Callers in
`src/unnamed/part_007` pass objects with missing fields (`message.iv` is not
a schema field, and no `authTag` key is supplied at all), so every field is
optional. -/
structure EncryptedInput where
  iv : Option (List Nat)
  encrypted : Option EncContent
  authTag : Option (List Nat)
  deriving DecidableEq, Repr

/-- View the full output of `encryptMessage` as a `decryptMessage` input. -/
def EncryptedData.toInput (d : EncryptedData) : EncryptedInput :=
  { iv := some d.iv, encrypted := some (.str d.encrypted), authTag := some d.authTag }

/-- `encryptMessage(message, key)` from `src/utils/security.js`.  The fresh
random 16-byte iv (`crypto.randomBytes(16)`) is passed explicitly. -/
def encryptMessage (message key iv : List Nat) : EncryptedData :=
  { iv := iv
    encrypted := gcmEncrypt key iv message
    authTag := gmac key iv (gcmEncrypt key iv message) }

/-- `decryptMessage(encryptedData, key)` from `src/utils/security.js`.
Mirrors the evaluation order of the JavaScript: `Buffer.from(undefined,
'hex')` for the iv throws first, then `setAuthTag` of a missing tag throws,
then `decipher.update` needs a hex-string ciphertext, and finally
`decipher.final` throws unless the authentication tag verifies — only then
is the plaintext released. -/
def decryptMessage (encryptedData : EncryptedInput) (key : List Nat) :
    Except CryptoError (List Nat) :=
  match encryptedData.iv with
  | none => .error .invalidInput
  | some iv =>
    match encryptedData.authTag with
    | none => .error .invalidInput
    | some tag =>
      match encryptedData.encrypted with
      | none => .error .invalidInput
      | some (.arr _) => .error .invalidInput
      | some (.str ct) =>
        if gmac key iv ct = tag then .ok (gcmDecrypt key iv ct)
        else .error .authFailed

/-- Flip bit `b` of byte `i` of a byte string (a single-bit mutation). -/
def flipBit (l : List Nat) (i b : Nat) : List Nat :=
  l.set i (l.getD i 0 ^^^ 2 ^ b)

theorem length_keyStream (key iv : List Nat) (n : Nat) :
    (keyStream key iv n).length = n := by
  simp [keyStream]

theorem zipWith_xor_cancel :
    ∀ (p ks : List Nat), p.length ≤ ks.length →
      List.zipWith (· ^^^ ·) (List.zipWith (· ^^^ ·) p ks) ks = p
  | [], _, _ => by simp
  | a :: p, b :: ks, h => by
    simp only [List.zipWith]
    rw [zipWith_xor_cancel p ks (by simpa using h)]
    rw [Nat.xor_assoc, Nat.xor_self, Nat.xor_zero]
  | _ :: _, [], h => by simp at h

theorem gcm_roundtrip (key iv p : List Nat) :
    gcmDecrypt key iv (gcmEncrypt key iv p) = p := by
  have hlen : (gcmEncrypt key iv p).length = p.length := by
    simp [gcmEncrypt, length_keyStream]
  unfold gcmDecrypt
  rw [hlen]
  exact zipWith_xor_cancel p _ (by simp [length_keyStream])

theorem set_ne_of_ne :
    ∀ (l : List Nat) (i v : Nat), i < l.length → v ≠ l.getD i 0 → l.set i v ≠ l
  | [], _, _, h, _ => by simp at h
  | a :: l, 0, v, _, hv => by
    intro heq
    exact hv (by simpa using congrArg (fun t => t.getD 0 0) heq)
  | a :: l, i + 1, v, h, hv => by
    intro heq
    exact set_ne_of_ne l i v (by simpa using h) (by simpa using hv)
      (by simpa using congrArg List.tail heq)

theorem flipBit_ne (l : List Nat) (i b : Nat) (h : i < l.length) :
    flipBit l i b ≠ l := by
  apply set_ne_of_ne l i _ h
  intro hx
  have h0 : (2 : Nat) ^ b = 0 := by
    have h1 := congrArg (l.getD i 0 ^^^ ·) hx
    simp only [← Nat.xor_assoc, Nat.xor_self, Nat.zero_xor] at h1
    exact h1
  exact absurd h0 (pow_ne_zero b two_ne_zero)

/-- A sample valid 32-byte key (64 hex characters decoded). -/
def exKey : List Nat := List.replicate 32 7

/-- A sample 16-byte initialization vector. -/
def exIv : List Nat := List.replicate 16 3

/-- C1: For every plaintext string P and every valid 32-byte hex key K,
decrypting the result of encrypting P under K with the same K returns
exactly P: `decryptMessage(encryptMessage(P, K), K) == P`. -/
theorem decrypt_encrypt_roundtrip (p key iv : List Nat)
    (_hk : key.length = 32) (_hiv : iv.length = 16) :
    decryptMessage (encryptMessage p key iv).toInput key = .ok p := by
  simp only [decryptMessage, encryptMessage, EncryptedData.toInput, if_pos rfl]
  exact congrArg Except.ok (gcm_roundtrip key iv p)

/-- Witness for C1 at a concrete plaintext, key and iv. -/
theorem decrypt_encrypt_roundtrip_witness :
    exKey.length = 32 ∧ exIv.length = 16 ∧
      decryptMessage (encryptMessage [104, 105, 33] exKey exIv).toInput exKey =
        .ok [104, 105, 33] :=
  ⟨by decide, by decide,
    decrypt_encrypt_roundtrip [104, 105, 33] exKey exIv (by decide) (by decide)⟩

/-- C2: For every valid key K and every output of `encryptMessage` under K,
decrypting a single-bit mutation of the ciphertext, or of the authentication
tag, yields a `CryptoError` and never returns any plaintext value (the tag
is checked before any plaintext is released). -/
theorem decrypt_rejects_bit_flip (p key iv : List Nat)
    (_hk : key.length = 32) (_hiv : iv.length = 16) (i b : Nat) (_hb : b < 8) :
    (i < (encryptMessage p key iv).encrypted.length →
      decryptMessage { (encryptMessage p key iv).toInput with
        encrypted := some (.str (flipBit (encryptMessage p key iv).encrypted i b)) }
        key = .error .authFailed) ∧
    (i < (encryptMessage p key iv).authTag.length →
      decryptMessage { (encryptMessage p key iv).toInput with
        authTag := some (flipBit (encryptMessage p key iv).authTag i b) }
        key = .error .authFailed) := by
  constructor
  · intro hi
    have hne : gmac key iv (flipBit (gcmEncrypt key iv p) i b) ≠
        gmac key iv (gcmEncrypt key iv p) := by
      intro hcontra
      simp only [gmac, List.append_assoc] at hcontra
      exact flipBit_ne _ i b (by simpa [encryptMessage] using hi)
        (List.append_cancel_left (List.append_cancel_left hcontra))
    simp [decryptMessage, encryptMessage, EncryptedData.toInput, hne]
  · intro hi
    have hne : gmac key iv (gcmEncrypt key iv p) ≠
        flipBit (gmac key iv (gcmEncrypt key iv p)) i b := by
      intro hcontra
      exact flipBit_ne _ i b (by simpa [encryptMessage] using hi) hcontra.symm
    simp [decryptMessage, encryptMessage, EncryptedData.toInput, hne]

/-- Witness for C2: flipping the lowest bit of the first ciphertext byte,
or of the first tag byte, makes decryption fail on a concrete message. -/
theorem decrypt_rejects_bit_flip_witness :
    decryptMessage { (encryptMessage [1, 2, 3] exKey exIv).toInput with
        encrypted := some (.str (flipBit (encryptMessage [1, 2, 3] exKey exIv).encrypted 0 0)) }
      exKey = .error .authFailed ∧
    decryptMessage { (encryptMessage [1, 2, 3] exKey exIv).toInput with
        authTag := some (flipBit (encryptMessage [1, 2, 3] exKey exIv).authTag 0 0) }
      exKey = .error .authFailed :=
  ⟨(decrypt_rejects_bit_flip [1, 2, 3] exKey exIv (by decide) (by decide) 0 0
      (by decide)).1 (by decide),
    (decrypt_rejects_bit_flip [1, 2, 3] exKey exIv (by decide) (by decide) 0 0
      (by decide)).2 (by decide)⟩

/-- `status` field of the message schema (`src/unnamed/part_012`):
`enum: ['sent', 'delivered', 'read', 'deleted'], default: 'sent'`. -/
inductive MessageStatus where
  | sent
  | delivered
  | read
  | deleted
  deriving DecidableEq, Repr

/-- A persisted Message document (`src/unnamed/part_012`).  The schema has no
`iv` and no `authTag` field; `metadata.*` subfields are inlined.  `readBy`
entries are `(user, readAt)` pairs. -/
structure StoredMessage where
  id : Nat
  sender : Nat
  recipient : Option Nat
  group : Option Nat
  content : List Nat
  encryptedContent : EncContent
  isEncrypted : Bool
  isSelfDestructing : Bool
  selfDestructAt : Option Nat
  readBy : List (Nat × Nat)
  status : MessageStatus
  createdAt : Nat
  deletedAt : Option Nat
  deriving DecidableEq, Repr

/-- A user record, reduced to the fields the message routes read
(`_id` and `encryptionKey`). -/
structure User where
  id : Nat
  encryptionKey : List Nat
  deriving DecidableEq, Repr

/-- A Group document (`src/unnamed/part_013`), reduced to the fields the
message routes and membership methods touch; a member is its user id. -/
structure Group where
  id : Nat
  members : List Nat
  admins : List Nat
  lastActivity : Nat
  messageCount : Nat
  memberCount : Nat
  deriving DecidableEq, Repr

/-- The persisted state the message routes operate on. -/
structure ChatState where
  messages : List StoredMessage
  groups : List Group
  deriving DecidableEq, Repr

/-- `User.findById`. -/
def findUser (users : List User) (uid : Nat) : Option User :=
  users.find? (fun u => u.id == uid)

/-- `Group.findById`. -/
def findGroup (groups : List Group) (gid : Nat) : Option Group :=
  groups.find? (fun g => g.id == gid)

/-- `Message.findById`. -/
def findMessage (db : List StoredMessage) (mid : Nat) : Option StoredMessage :=
  db.find? (fun m => m.id == mid)

/-- Persist an update of the message document with the given id
(`message.save()` after mutating it). -/
def updateMessage (db : List StoredMessage) (mid : Nat)
    (f : StoredMessage → StoredMessage) : List StoredMessage :=
  db.map (fun m => if m.id == mid then f m else m)

/-- Persist an update of the group document with the given id. -/
def updateGroupDoc (groups : List Group) (gid : Nat)
    (f : Group → Group) : List Group :=
  groups.map (fun g => if g.id == gid then f g else g)

/-- `messageSchema.methods.markAsRead` (`src/unnamed/part_012`): append a
read receipt and set `status = 'read'` only when the user has no receipt
yet; otherwise do nothing.  There is no check of `deletedAt` or of the
current status. -/
def markAsRead (m : StoredMessage) (userId now : Nat) : StoredMessage :=
  if m.readBy.any (fun r => r.1 == userId) then m
  else { m with readBy := m.readBy ++ [(userId, now)], status := .read }

/-- `messageSchema.methods.softDelete` (`src/unnamed/part_012`): set
`deletedAt` to the current instant and `status = 'deleted'`,
unconditionally. -/
def softDelete (m : StoredMessage) (now : Nat) : StoredMessage :=
  { m with deletedAt := some now, status := .deleted }

/-- Errors surfaced by the message routes in `src/unnamed/part_007`
(HTTP 404 / 403 / 500 responses). -/
inductive RouteError where
  | notFound
  | notAuthorized
  | serverError
  deriving DecidableEq, Repr

/-- `message.save()`: Mongoose validates the new document against the
schema of `src/unnamed/part_012` before persisting.  `encryptedContent` is
declared `{ type: String, required: true }`, and Mongoose's string cast
rejects arrays, so saving a document whose `encryptedContent` holds the
group route's entry array throws a `CastError`; a plain (hex-string) value
is persisted by appending the document to the collection. -/
def saveMessage (db : List StoredMessage) (msg : StoredMessage) :
    Except RouteError (List StoredMessage) :=
  match msg.encryptedContent with
  | .str _ => .ok (db ++ [msg])
  | .arr _ => .error .serverError

/-- `router.post('/user/:userId')` (`src/unnamed/part_007`): look up the
recipient (404 if absent), encrypt the content under the recipient's key,
and persist a message that stores the plaintext in `content` and only the
ciphertext hex in `encryptedContent` — the `iv` and `authTag` returned by
`encryptMessage` are discarded.  The clock, the fresh iv and the generated
document id are explicit arguments. -/
def sendDirect (db : List StoredMessage) (users : List User)
    (senderId recipientId : Nat) (content : List Nat)
    (isSelfDestructing : Bool) (selfDestructTime : Nat)
    (now : Nat) (iv : List Nat) (newId : Nat) :
    Except RouteError (List StoredMessage × Nat) :=
  match findUser users recipientId with
  | none => .error .notFound
  | some recip =>
    let encryptedData := encryptMessage content recip.encryptionKey iv
    let msg : StoredMessage :=
      { id := newId
        sender := senderId
        recipient := some recip.id
        group := none
        content := content
        encryptedContent := .str encryptedData.encrypted
        isEncrypted := true
        isSelfDestructing := isSelfDestructing
        selfDestructAt := if isSelfDestructing then some (now + selfDestructTime) else none
        readBy := []
        status := .sent
        createdAt := now
        deletedAt := none }
    match saveMessage db msg with
    | .error e => .error e
    | .ok db2 => .ok (db2, newId)

/-- The per-member encryption loop of `router.post('/group/:groupId')`:
`req.group.members.map(async member => { ... encryptMessage(content,
user.encryptionKey) ... })`.  A missing member user makes the route throw
(500), hence `none`.  `encryptMessage` draws a fresh iv per call, supplied
by the stream `ivf`; `i` is the position in the member list. -/
def buildGroupPayload (users : List User) (members : List Nat)
    (content : List Nat) (ivf : Nat → List Nat) (i : Nat) :
    Option (List GroupEntry) :=
  match members with
  | [] => some []
  | u :: rest =>
    match findUser users u with
    | none => none
    | some usr =>
      match buildGroupPayload users rest content ivf (i + 1) with
      | none => none
      | some tail =>
        some ({ userId := usr.id
                encrypted := (encryptMessage content usr.encryptionKey (ivf i)).encrypted } :: tail)

/-- `router.post('/group/:groupId')` (`src/unnamed/part_007`): encrypt the
content once per current group member and attempt to persist the message
with the entry array in `encryptedContent` (again discarding every iv and
authTag); `await message.save()` throws the schema's `CastError` on that
array, so the group-metadata update is never reached and the route answers
500. -/
def sendGroup (st : ChatState) (users : List User)
    (senderId gid : Nat) (content : List Nat)
    (isSelfDestructing : Bool) (selfDestructTime : Nat)
    (now : Nat) (ivf : Nat → List Nat) (newId : Nat) :
    Except RouteError ChatState :=
  match findGroup st.groups gid with
  | none => .error .notFound
  | some g =>
    match buildGroupPayload users g.members content ivf 0 with
    | none => .error .serverError
    | some entries =>
      let msg : StoredMessage :=
        { id := newId
          sender := senderId
          recipient := none
          group := some g.id
          content := content
          encryptedContent := .arr entries
          isEncrypted := true
          isSelfDestructing := isSelfDestructing
          selfDestructAt := if isSelfDestructing then some (now + selfDestructTime) else none
          readBy := []
          status := .sent
          createdAt := now
          deletedAt := none }
      match saveMessage st.messages msg with
      | .error e => .error e
      | .ok msgs2 =>
        .ok { messages := msgs2
              groups := updateGroupDoc st.groups gid
                (fun g0 => { g0 with lastActivity := now, messageCount := g0.messageCount + 1 }) }

/-- Insert a message into a list sorted by `createdAt` descending
(`.sort({ createdAt: -1 })`). -/
def insertByCreatedDesc (m : StoredMessage) : List StoredMessage → List StoredMessage
  | [] => [m]
  | x :: xs =>
    if m.createdAt ≤ x.createdAt then x :: insertByCreatedDesc m xs
    else m :: x :: xs

/-- Sort newest-first, the order the fetch routes request from Mongo. -/
def sortByCreatedDesc (db : List StoredMessage) : List StoredMessage :=
  db.foldr insertByCreatedDesc []

/-- The Mongo query of `router.get('/user/:userId')`: messages between the
two users in either direction, not soft-deleted (`deletedAt: null`). -/
def directBetween (uid otherId : Nat) (m : StoredMessage) : Bool :=
  ((m.sender == uid && m.recipient == some otherId) ||
    (m.sender == otherId && m.recipient == some uid)) && m.deletedAt == none

/-- The query + sort + limit pipeline shared by both fetch routes. -/
def selectMessages (db : List StoredMessage) (p : StoredMessage → Bool) :
    List StoredMessage :=
  (sortByCreatedDesc (db.filter p)).take 50

/-- The decryption step of `router.get('/user/:userId')` for one message:
`decryptMessage({ encrypted: message.encryptedContent, iv: message.iv },
req.user.encryptionKey)`.  The schema stores no `iv`, so `message.iv` is
`undefined`, and no `authTag` key is passed at all. -/
def decryptFetchedDirect (m : StoredMessage) (key : List Nat) :
    Except CryptoError StoredMessage :=
  if m.isEncrypted then
    match decryptMessage
        { iv := none, encrypted := some m.encryptedContent, authTag := none } key with
    | .ok p => .ok { m with content := p }
    | .error e => .error e
  else .ok m

/-- `messages.map(...)` in a route's `try` block: the first decryption
error thrown aborts the whole request (HTTP 500). -/
def decryptAll (step : StoredMessage → Except CryptoError StoredMessage) :
    List StoredMessage → Except CryptoError (List StoredMessage)
  | [] => .ok []
  | m :: rest =>
    match step m with
    | .error e => .error e
    | .ok m1 =>
      match decryptAll step rest with
      | .error e => .error e
      | .ok rest1 => .ok (m1 :: rest1)

/-- `router.get('/user/:userId')` (`src/unnamed/part_007`): select the 50
most recent non-deleted messages between the two users and decrypt each
with the requesting user's key. -/
def fetchDirect (db : List StoredMessage) (uid otherId : Nat) (key : List Nat) :
    Except CryptoError (List StoredMessage) :=
  decryptAll (decryptFetchedDirect · key) (selectMessages db (directBetween uid otherId))

/-- The decryption step of `router.get('/group/:groupId')` for one message:
find this user's entry in the `encryptedContent` array; if present, decrypt
it (again with `iv: message.iv`, which is `undefined`, and no auth tag); a
message with no entry for the user is returned as-is.  On a string payload
the JavaScript `Array.prototype.find` call throws. -/
def decryptFetchedGroup (m : StoredMessage) (uid : Nat) (key : List Nat) :
    Except CryptoError StoredMessage :=
  if m.isEncrypted then
    match m.encryptedContent with
    | .str _ => .error .invalidInput
    | .arr entries =>
      match entries.find? (fun e => e.userId == uid) with
      | none => .ok m
      | some e =>
        match decryptMessage
            { iv := none, encrypted := some (.str e.encrypted), authTag := none } key with
        | .ok p => .ok { m with content := p }
        | .error err => .error err
  else .ok m

/-- `router.get('/group/:groupId')` (`src/unnamed/part_007`): select the 50
most recent non-deleted messages of the group and decrypt each message's
entry for the requesting user. -/
def fetchGroup (db : List StoredMessage) (gid uid : Nat) (key : List Nat) :
    Except CryptoError (List StoredMessage) :=
  decryptAll (decryptFetchedGroup · uid key)
    (selectMessages db (fun m => m.group == some gid && m.deletedAt == none))

/-- `router.delete('/:messageId')` (`src/unnamed/part_007`): 404 when the id
matches no document, 403 when the requester is neither the sender nor an
admin of the owning group, otherwise `softDelete`.  The route never checks
whether the message is already deleted. -/
def deleteMessageRoute (db : List StoredMessage) (requesterId mid : Nat)
    (isGroupAdmin : Bool) (now : Nat) :
    Except RouteError (List StoredMessage) :=
  match findMessage db mid with
  | none => .error .notFound
  | some m =>
    if m.sender ≠ requesterId ∧ ¬(m.group.isSome ∧ isGroupAdmin) then
      .error .notAuthorized
    else
      .ok (updateMessage db mid (softDelete · now))

/-- The Mongo query of `cleanupSelfDestructingMessages`: self-destructing
with `selfDestructAt <= now`.  Already-deleted messages are not excluded. -/
def expired (now : Nat) (m : StoredMessage) : Bool :=
  m.isSelfDestructing && (match m.selfDestructAt with
    | some t => t ≤ now
    | none => false)

/-- The `for ... await message.softDelete()` loop of
`cleanupSelfDestructingMessages`, inside one `try`: each save either
commits or throws (`fails` says which); the first throw jumps to the
`catch`, which only logs, so the remaining ids are never attempted and no
error escapes. -/
def sweepLoop (db : List StoredMessage) (ids : List Nat) (now : Nat)
    (fails : Nat → Bool) : List StoredMessage :=
  match ids with
  | [] => db
  | i :: rest =>
    if fails i then db
    else sweepLoop (updateMessage db i (softDelete · now)) rest now fails

/-- `cleanupSelfDestructingMessages` (`src/unnamed/part_007`) with an
explicit store-failure oracle: query the expired set once, then soft-delete
each in order until the first failing save. -/
def cleanupWith (db : List StoredMessage) (now : Nat) (fails : Nat → Bool) :
    List StoredMessage :=
  sweepLoop db ((db.filter (expired now)).map (·.id)) now fails

/-- One sweep cycle of `cleanupSelfDestructingMessages` in which every
`save()` succeeds. -/
def cleanupSelfDestructingMessages (db : List StoredMessage) (now : Nat) :
    List StoredMessage :=
  cleanupWith db now (fun _ => false)

/-- A sample direct message document. -/
def exMsgBase : StoredMessage :=
  { id := 1
    sender := 1
    recipient := some 2
    group := none
    content := [104]
    encryptedContent := .str [7]
    isEncrypted := true
    isSelfDestructing := false
    selfDestructAt := none
    readBy := []
    status := .sent
    createdAt := 5
    deletedAt := none }

/-- A sample message that has already been soft-deleted. -/
def exDeletedMsg : StoredMessage :=
  { exMsgBase with status := .deleted, deletedAt := some 6 }

/-- C9: `markAsRead` is idempotent per user: starting from a message with no
receipt for the user, one call leaves exactly one `readBy` entry for that
user, and any repeated call with the same user is a no-op. -/
theorem markAsRead_idempotent (m : StoredMessage) (u t1 t2 : Nat)
    (h : ∀ r ∈ m.readBy, r.1 ≠ u) :
    (markAsRead m u t1).readBy.countP (fun r => r.1 == u) = 1 ∧
      markAsRead (markAsRead m u t1) u t2 = markAsRead m u t1 := by
  have hany : m.readBy.any (fun r => r.1 == u) = false := by
    simp only [List.any_eq_false, beq_iff_eq]
    intro r hr
    exact h r hr
  have hz : m.readBy.countP (fun r => r.1 == u) = 0 := by
    rw [List.countP_eq_zero]
    intro r hr
    simpa using h r hr
  constructor
  · simp [markAsRead, hany, List.countP_append, hz]
  · simp [markAsRead, hany, List.any_append]

/-- Witness for C9 at a concrete message and user. -/
theorem markAsRead_idempotent_witness :
    (markAsRead exMsgBase 7 10).readBy.countP (fun r => r.1 == 7) = 1 ∧
      markAsRead (markAsRead exMsgBase 7 10) 7 20 = markAsRead exMsgBase 7 10 :=
  markAsRead_idempotent exMsgBase 7 10 20 (by decide)

/-- C6 counterexample: `exDeletedMsg` has `deletedAt` set and `status =
'deleted'`, yet a subsequent `markAsRead` by a user who has not read it
mutates the record — it appends a receipt and rewrites `status` to
`'read'` — so a deleted record is not terminal and `markAsRead` does not
check the deleted state. -/
theorem markAsRead_mutates_deleted_counterexample :
    exDeletedMsg.deletedAt = some 6 ∧ exDeletedMsg.status = .deleted ∧
      markAsRead exDeletedMsg 7 10 ≠ exDeletedMsg ∧
      (markAsRead exDeletedMsg 7 10).status = .read ∧
      (markAsRead exDeletedMsg 7 10).readBy = [(7, 10)] := by
  decide

/-- C6 amended: once `deletedAt` is set the record is not terminal:
`markAsRead` by any user without a receipt appends to `readBy` and rewrites
`status` to `'read'` regardless of the deleted state, and a repeated
`softDelete` (as issued by the sweep) re-stamps `deletedAt`. -/
theorem deleted_message_not_terminal (m : StoredMessage) (u t : Nat)
    (_hdel : m.deletedAt.isSome) (h : ∀ r ∈ m.readBy, r.1 ≠ u) :
    (markAsRead m u t).status = .read ∧
      (markAsRead m u t).readBy = m.readBy ++ [(u, t)] ∧
      ∀ t2, (softDelete m t2).deletedAt = some t2 ∧
        (softDelete m t2).status = .deleted := by
  have hany : m.readBy.any (fun r => r.1 == u) = false := by
    simp only [List.any_eq_false, beq_iff_eq]
    intro r hr
    exact h r hr
  refine ⟨?_, ?_, ?_⟩
  · simp [markAsRead, hany]
  · simp [markAsRead, hany]
  · intro t2
    exact ⟨rfl, rfl⟩

/-- Witness for the amended C6 at a concrete deleted message. -/
theorem deleted_message_not_terminal_witness :
    (markAsRead exDeletedMsg 7 10).status = .read ∧
      (markAsRead exDeletedMsg 7 10).readBy = exDeletedMsg.readBy ++ [(7, 10)] ∧
      ∀ t2, (softDelete exDeletedMsg t2).deletedAt = some t2 ∧
        (softDelete exDeletedMsg t2).status = .deleted :=
  deleted_message_not_terminal exDeletedMsg 7 10 (by decide) (by decide)

/-- C7 counterexample: the delete route invoked by the sender on an
already-deleted message does not answer `NotFound`; it succeeds and simply
soft-deletes again. -/
theorem delete_already_deleted_succeeds_counterexample :
    findMessage [exDeletedMsg] 1 = some exDeletedMsg ∧
      exDeletedMsg.deletedAt = some 6 ∧
      deleteMessageRoute [exDeletedMsg] 1 1 false 99 =
        .ok [{ exDeletedMsg with deletedAt := some 99 }] := by
  decide

/-- C7 amended: a user-action delete fails with `NotFound` only when the id
matches no document; on an already-deleted message it succeeds and re-runs
`softDelete` (re-stamping `deletedAt`) instead of erroring, and a repeated
`softDelete` — the sweep's path — raises no error, being equivalent to a
single `softDelete` at the later instant. -/
theorem delete_route_second_call (db : List StoredMessage) (uid mid : Nat)
    (ga : Bool) (now : Nat) :
    (findMessage db mid = none →
      deleteMessageRoute db uid mid ga now = .error .notFound) ∧
    (∀ m, findMessage db mid = some m → m.sender = uid →
      deleteMessageRoute db uid mid ga now =
        .ok (updateMessage db mid (softDelete · now))) ∧
    (∀ m t1 t2, softDelete (softDelete m t1) t2 = softDelete m t2) := by
  refine ⟨?_, ?_, ?_⟩
  · intro hnone
    simp [deleteMessageRoute, hnone]
  · intro m hm hs
    simp [deleteMessageRoute, hm, hs]
  · intro m t1 t2
    rfl

/-- Witness for the amended C7: the missing-id case and the already-deleted
case at concrete inputs. -/
theorem delete_route_second_call_witness :
    deleteMessageRoute [exDeletedMsg] 1 5 false 99 = .error .notFound ∧
      deleteMessageRoute [exDeletedMsg] 1 1 false 99 =
        .ok (updateMessage [exDeletedMsg] 1 (softDelete · 99)) :=
  ⟨(delete_route_second_call [exDeletedMsg] 1 5 false 99).1 (by decide),
    (delete_route_second_call [exDeletedMsg] 1 1 false 99).2.1 exDeletedMsg
      (by decide) (by decide)⟩

/-- A first expired self-destructing message. -/
def exExpired1 : StoredMessage :=
  { exMsgBase with id := 1, isSelfDestructing := true, selfDestructAt := some 10 }

/-- A second expired self-destructing message. -/
def exExpired2 : StoredMessage :=
  { exMsgBase with id := 2, isSelfDestructing := true, selfDestructAt := some 10 }

/-- A store holding two expired self-destructing messages. -/
def exDb8 : List StoredMessage := [exExpired1, exExpired2]

/-- C8 counterexample: with two expired messages, a save failure on the
first aborts the whole sweep cycle — the second eligible message is never
attempted and stays undeleted, so the per-message deletions are not
independent. -/
theorem sweep_failure_aborts_rest_counterexample :
    cleanupWith exDb8 20 (fun i => i == 1) = exDb8 ∧
      (∃ m ∈ cleanupWith exDb8 20 (fun i => i == 1),
        m.id = 2 ∧ expired 20 m = true ∧ m.deletedAt = none) := by
  decide

theorem sweepLoop_stops (now : Nat) (fails : Nat → Bool) (i : Nat)
    (rest : List Nat) (hf : fails i = true) :
    ∀ (done : List Nat) (db : List StoredMessage), (done ++ i :: rest).Nodup →
      (∀ j ∈ done, fails j = false) →
      sweepLoop db (done ++ i :: rest) now fails =
        db.map (fun m => if m.id ∈ done then softDelete m now else m)
  | [], db, _, _ => by
    simp only [List.nil_append]
    unfold sweepLoop
    rw [if_pos hf]
    simp
  | j :: done2, db, hnd, hdone => by
    have hjf : fails j = false := hdone j (List.mem_cons_self j done2)
    have hnd0 : (j :: (done2 ++ i :: rest)).Nodup := by
      simpa only [List.cons_append] using hnd
    have hnd1 := List.nodup_cons.mp hnd0
    have hj : j ∉ done2 := fun hc => hnd1.1 (List.mem_append_left _ hc)
    show sweepLoop db (j :: (done2 ++ i :: rest)) now fails = _
    unfold sweepLoop
    rw [if_neg (by simp [hjf])]
    rw [sweepLoop_stops now fails i rest hf done2 _ hnd1.2
      (fun x hx => hdone x (List.mem_cons_of_mem j hx))]
    unfold updateMessage
    rw [List.map_map]
    refine List.map_congr_left (fun m _ => ?_)
    by_cases hmi : m.id = j
    · have h1 : (m.id == j) = true := by simp [hmi]
      have h2 : ¬ (softDelete m now).id ∈ done2 := by
        show ¬ m.id ∈ done2
        rw [hmi]
        exact hj
      have h3 : m.id ∈ j :: done2 := by
        rw [hmi]
        exact List.mem_cons_self j done2
      simp only [Function.comp, h1, if_true, if_neg h2, if_pos h3]
    · have hne : (m.id == j) = false := by simp [hmi]
      simp only [Function.comp, hne, Bool.false_eq_true, if_false]
      exact if_congr (by simp [List.mem_cons, hmi]) rfl rfl

/-- C8 amended: the sweep's `try` wraps the whole loop, so a save failure
at any expired message aborts the deletion of every remaining expired
message in that cycle — deletions already performed persist, while the
failing message and all later eligible ones are left untouched and stay
eligible for the next cycle; the error is only logged, the sweep itself
propagates nothing. -/
theorem sweep_aborts_at_failed_save (db : List StoredMessage) (now : Nat)
    (fails : Nat → Bool) (done : List Nat) (i : Nat) (rest : List Nat)
    (hnd : (db.map (·.id)).Nodup)
    (h : (db.filter (expired now)).map (·.id) = done ++ i :: rest)
    (hdone : ∀ j ∈ done, fails j = false) (hf : fails i = true) :
    cleanupWith db now fails =
      db.map (fun m => if m.id ∈ done then softDelete m now else m) ∧
    ∀ m ∈ db, m.id ∈ i :: rest → m ∈ cleanupWith db now fails := by
  have hnde : (done ++ i :: rest).Nodup := by
    rw [← h]
    exact ((List.filter_sublist db).map (·.id)).nodup hnd
  have hmain : cleanupWith db now fails =
      db.map (fun m => if m.id ∈ done then softDelete m now else m) := by
    unfold cleanupWith
    rw [h]
    exact sweepLoop_stops now fails i rest hf done db hnde hdone
  refine ⟨hmain, ?_⟩
  intro m hm hmid
  have hdisj := List.disjoint_of_nodup_append hnde
  have hnotdone : m.id ∉ done := fun hc => hdisj hc hmid
  rw [hmain]
  exact List.mem_map.mpr ⟨m, hm, by rw [if_neg hnotdone]⟩

/-- A third expired self-destructing message. -/
def exExpired3 : StoredMessage :=
  { exMsgBase with id := 3, isSelfDestructing := true, selfDestructAt := some 10 }

/-- A store holding three expired self-destructing messages. -/
def exDbSweep : List StoredMessage := [exExpired1, exExpired2, exExpired3]

/-- Witness for the amended C8: with three expired messages and the save of
the second one failing, the first stays deleted while the second and third
remain untouched in the store. -/
theorem sweep_aborts_at_failed_save_witness :
    cleanupWith exDbSweep 20 (fun j => j == 2) =
      exDbSweep.map (fun m => if m.id ∈ [1] then softDelete m 20 else m) ∧
    ∀ m ∈ exDbSweep, m.id ∈ 2 :: [3] →
      m ∈ cleanupWith exDbSweep 20 (fun j => j == 2) :=
  sweep_aborts_at_failed_save exDbSweep 20 (fun j => j == 2) [1] 2 [3]
    (by decide) (by decide) (by decide) (by decide)

theorem mem_insertByCreatedDesc (x m : StoredMessage) :
    ∀ (l : List StoredMessage), x ∈ insertByCreatedDesc m l ↔ x = m ∨ x ∈ l
  | [] => by simp [insertByCreatedDesc]
  | y :: ys => by
    unfold insertByCreatedDesc
    by_cases hc : m.createdAt ≤ y.createdAt
    · rw [if_pos hc]
      simp only [List.mem_cons, mem_insertByCreatedDesc x m ys]
      tauto
    · rw [if_neg hc]
      simp only [List.mem_cons]

theorem mem_sortByCreatedDesc (x : StoredMessage) :
    ∀ (l : List StoredMessage), x ∈ sortByCreatedDesc l ↔ x ∈ l
  | [] => by simp [sortByCreatedDesc]
  | y :: ys => by
    show x ∈ insertByCreatedDesc y (sortByCreatedDesc ys) ↔ _
    rw [mem_insertByCreatedDesc, mem_sortByCreatedDesc x ys]
    simp [List.mem_cons]

theorem mem_selectMessages (db : List StoredMessage) (p : StoredMessage → Bool)
    (x : StoredMessage) (h : x ∈ selectMessages db p) : x ∈ db ∧ p x = true := by
  unfold selectMessages at h
  have h1 := List.take_subset 50 _ h
  rw [mem_sortByCreatedDesc] at h1
  exact ⟨(List.mem_filter.mp h1).1, (List.mem_filter.mp h1).2⟩

theorem sweepLoop_nofail (now : Nat) :
    ∀ (ids : List Nat) (db : List StoredMessage), ids.Nodup →
      sweepLoop db ids now (fun _ => false) =
        db.map (fun m => if m.id ∈ ids then softDelete m now else m)
  | [], db, _ => by simp [sweepLoop]
  | i :: rest, db, h => by
    have hni : i ∉ rest := (List.nodup_cons.mp h).1
    unfold sweepLoop
    rw [if_neg (by simp)]
    rw [sweepLoop_nofail now rest _ (List.nodup_cons.mp h).2]
    unfold updateMessage
    rw [List.map_map]
    refine List.map_congr_left (fun m _ => ?_)
    by_cases hmi : m.id = i
    · have h1 : (m.id == i) = true := by simp [hmi]
      have h2 : ¬ (softDelete m now).id ∈ rest := by
        show ¬ m.id ∈ rest
        rw [hmi]
        exact hni
      have h3 : m.id ∈ i :: rest := by
        rw [hmi]
        exact List.mem_cons_self i rest
      simp only [Function.comp, h1, if_true, if_neg h2, if_pos h3]
    · have hne : (m.id == i) = false := by simp [hmi]
      simp only [Function.comp, hne, Bool.false_eq_true, if_false]
      exact if_congr (by simp [List.mem_cons, hmi]) rfl rfl

theorem decryptAll_ok_mem (step : StoredMessage → Except CryptoError StoredMessage) :
    ∀ (l L : List StoredMessage), decryptAll step l = .ok L →
      ∀ x ∈ L, ∃ s ∈ l, step s = .ok x
  | [], L, h => by
    intro x hx
    simp only [decryptAll] at h
    injection h with h2
    rw [← h2] at hx
    cases hx
  | m :: rest, L, h => by
    intro x hx
    simp only [decryptAll] at h
    cases hs : step m with
    | error e => rw [hs] at h; cases h
    | ok m1 =>
      rw [hs] at h
      cases hr : decryptAll step rest with
      | error e => rw [hr] at h; cases h
      | ok rest1 =>
        rw [hr] at h
        injection h with h2
        rw [← h2] at hx
        rcases List.mem_cons.mp hx with h1 | h1
        · exact ⟨m, List.mem_cons_self m rest, by rw [hs, h1]⟩
        · obtain ⟨s, hs1, hs2⟩ := decryptAll_ok_mem step rest rest1 hr x h1
          exact ⟨s, List.mem_cons_of_mem m hs1, hs2⟩

theorem decryptFetchedDirect_ok (m x : StoredMessage) (key : List Nat)
    (h : decryptFetchedDirect m key = .ok x) :
    x.id = m.id ∧ x.deletedAt = m.deletedAt := by
  unfold decryptFetchedDirect at h
  by_cases he : m.isEncrypted = true
  · rw [if_pos he] at h
    cases hd : decryptMessage
        { iv := none, encrypted := some m.encryptedContent, authTag := none } key with
    | ok p => rw [hd] at h; injection h with h2; rw [← h2]; exact ⟨rfl, rfl⟩
    | error e => rw [hd] at h; cases h
  · rw [if_neg he] at h
    injection h with h2
    rw [← h2]
    exact ⟨rfl, rfl⟩

theorem decryptFetchedGroup_ok (m x : StoredMessage) (uid : Nat) (key : List Nat)
    (h : decryptFetchedGroup m uid key = .ok x) :
    x.id = m.id ∧ x.deletedAt = m.deletedAt := by
  unfold decryptFetchedGroup at h
  split at h
  · split at h
    · cases h
    · split at h
      · injection h with h2
        rw [← h2]
        exact ⟨rfl, rfl⟩
      · split at h
        · injection h with h2
          rw [← h2]
          exact ⟨rfl, rfl⟩
        · cases h
  · injection h with h2
    rw [← h2]
    exact ⟨rfl, rfl⟩

/-- The outcome C5 requires of one sweep cycle for an expired message:
soft-deleted in the store, and absent from every successful direct or group
fetch performed afterwards. -/
def sweepOutcome (db : List StoredMessage) (now : Nat) (m : StoredMessage) : Prop :=
  (∃ m1 ∈ cleanupSelfDestructingMessages db now,
    m1.id = m.id ∧ m1.status = .deleted ∧ m1.deletedAt = some now) ∧
  (∀ uid otherId key L,
    fetchDirect (cleanupSelfDestructingMessages db now) uid otherId key = .ok L →
    ∀ x ∈ L, x.id ≠ m.id) ∧
  (∀ gid uid key L,
    fetchGroup (cleanupSelfDestructingMessages db now) gid uid key = .ok L →
    ∀ x ∈ L, x.id ≠ m.id)

theorem cleanup_as_map (db : List StoredMessage) (now : Nat)
    (hnd : (db.map (·.id)).Nodup) :
    cleanupSelfDestructingMessages db now =
      db.map (fun m0 =>
        if m0.id ∈ (db.filter (expired now)).map (·.id) then softDelete m0 now
        else m0) := by
  unfold cleanupSelfDestructingMessages cleanupWith
  exact sweepLoop_nofail now _ db
    (((List.filter_sublist db).map (·.id)).nodup hnd)

/-- C5: a non-deleted message with `isSelfDestructing = true` and
`selfDestructAt` at or before the current instant is, after one sweep
cycle, soft-deleted (`status = 'deleted'`, `deletedAt` set) and excluded
from the results of every subsequent direct or group fetch. -/
theorem sweep_deletes_expired_message (db : List StoredMessage) (now : Nat)
    (m : StoredMessage) (hnd : (db.map (·.id)).Nodup) (hm : m ∈ db)
    (_hdel : m.deletedAt = none) (hsd : m.isSelfDestructing = true)
    (ht : ∃ t, m.selfDestructAt = some t ∧ t ≤ now) :
    sweepOutcome db now m := by
  obtain ⟨t, ht1, ht2⟩ := ht
  have hexp : expired now m = true := by
    simp only [expired, hsd, ht1, Bool.true_and]
    exact decide_eq_true ht2
  have hidm : m.id ∈ (db.filter (expired now)).map (·.id) :=
    List.mem_map_of_mem _ (List.mem_filter.mpr ⟨hm, hexp⟩)
  have hmap := cleanup_as_map db now hnd
  have hinj := List.inj_on_of_nodup_map hnd
  -- every record of the swept store carrying m's id is the soft-deleted m
  have key : ∀ y ∈ cleanupSelfDestructingMessages db now,
      y.id = m.id → y = softDelete m now := by
    intro y hy hyid
    rw [hmap] at hy
    obtain ⟨m0, hm0, hfm0⟩ := List.mem_map.mp hy
    have hid0 : m0.id = m.id := by
      rw [← hyid, ← hfm0]
      by_cases hc : m0.id ∈ (db.filter (expired now)).map (·.id)
      · rw [if_pos hc]
        rfl
      · rw [if_neg hc]
    have : m0 = m := hinj hm0 hm hid0
    rw [← hfm0, this, if_pos hidm]
  refine ⟨?_, ?_, ?_⟩
  · refine ⟨softDelete m now, ?_, rfl, rfl, rfl⟩
    rw [hmap]
    exact List.mem_map.mpr ⟨m, hm, by rw [if_pos hidm]⟩
  · intro uid otherId k L hL x hx heq
    obtain ⟨s, hs1, hs2⟩ := decryptAll_ok_mem _ _ _ hL x hx
    obtain ⟨hsmem, hsp⟩ := mem_selectMessages _ _ _ hs1
    have hxid := (decryptFetchedDirect_ok s x k hs2).1
    have hsdel : s.deletedAt = none := by
      simp only [directBetween, Bool.and_eq_true, beq_iff_eq] at hsp
      exact hsp.2
    have := key s hsmem (by rw [← hxid, heq])
    rw [this] at hsdel
    cases hsdel
  · intro gid uid k L hL x hx heq
    obtain ⟨s, hs1, hs2⟩ := decryptAll_ok_mem _ _ _ hL x hx
    obtain ⟨hsmem, hsp⟩ := mem_selectMessages _ _ _ hs1
    have hxid := (decryptFetchedGroup_ok s x uid k hs2).1
    have hsdel : s.deletedAt = none := by
      simp only [Bool.and_eq_true, beq_iff_eq] at hsp
      exact hsp.2
    have := key s hsmem (by rw [← hxid, heq])
    rw [this] at hsdel
    cases hsdel

/-- A store holding one expired self-destructing message. -/
def exDb5 : List StoredMessage := [exExpired1]

/-- Witness for C5 at a concrete one-message store. -/
theorem sweep_deletes_expired_message_witness : sweepOutcome exDb5 20 exExpired1 :=
  sweep_deletes_expired_message exDb5 20 exExpired1 (by decide) (by decide)
    (by decide) (by decide) ⟨10, rfl, by decide⟩

/-- The single-recipient user directory for the concrete examples. -/
def exUsers : List User := [{ id := 2, encryptionKey := exKey }]

/-- The store produced by sending one direct message into an empty store. -/
def exSentDb : List StoredMessage :=
  match sendDirect [] exUsers 1 2 [104, 105] false 0 10 exIv 100 with
  | .ok (db, _) => db
  | .error _ => []

/-- C3 fails on the code: after a successful direct send, fetching the
conversation as the recipient does not return the plaintext.  The stored
`encryptedContent` lacks the iv and auth tag (the schema has no `iv` field,
so the route passes `iv: undefined` and no `authTag` to `decryptMessage`),
the decryption throws, and the whole fetch request fails. -/
theorem send_then_fetch_fails :
    sendDirect [] exUsers 1 2 [104, 105] false 0 10 exIv 100 = .ok (exSentDb, 100) ∧
      fetchDirect exSentDb 2 1 exKey = .error .invalidInput := by
  exact ⟨rfl, rfl⟩

/-- The shape C10 requires of a persisted direct send: plaintext kept in
`content`, only the ciphertext in `encryptedContent`, and the persisted
payload alone — there being no stored iv or auth tag — rejected by
`decryptMessage` under every key. -/
def directSendOutcome (db : List StoredMessage) (users : List User)
    (recipientId : Nat) (content : List Nat) (iv : List Nat)
    (db2 : List StoredMessage) : Prop :=
  ∃ recip msg,
    findUser users recipientId = some recip ∧
    db2 = db ++ [msg] ∧
    msg.content = content ∧
    msg.isEncrypted = true ∧
    msg.encryptedContent = .str (encryptMessage content recip.encryptionKey iv).encrypted ∧
    ∀ k, decryptMessage
        { iv := none, encrypted := some msg.encryptedContent, authTag := none } k =
      .error .invalidInput

/-- C10: every message persisted by the direct-send route stores the
original plaintext in the required `content` field and only the ciphertext
hex in `encryptedContent`; the iv and auth tag returned by `encryptMessage`
are discarded before persistence, so the stored payload alone is not
sufficient input for `decryptMessage` — it is rejected for every key. -/
theorem sendDirect_stores_plaintext (db : List StoredMessage) (users : List User)
    (senderId recipientId : Nat) (content : List Nat) (isSD : Bool)
    (sdt now : Nat) (iv : List Nat) (newId : Nat)
    (db2 : List StoredMessage) (mid : Nat)
    (h : sendDirect db users senderId recipientId content isSD sdt now iv newId =
      .ok (db2, mid)) :
    directSendOutcome db users recipientId content iv db2 := by
  cases hu : findUser users recipientId with
  | none =>
    simp only [sendDirect, hu] at h
    exact Except.noConfusion h
  | some recip =>
    simp only [sendDirect, hu, saveMessage, Except.ok.injEq, Prod.mk.injEq] at h
    refine ⟨recip, _, hu, h.1.symm, rfl, rfl, rfl, fun k => rfl⟩

/-- Witness for C10 at the concrete one-message send. -/
theorem sendDirect_stores_plaintext_witness :
    directSendOutcome [] exUsers 2 [104, 105] exIv exSentDb :=
  sendDirect_stores_plaintext [] exUsers 1 2 [104, 105] false 0 10 exIv 100
    exSentDb 100 rfl

/-- A two-member user directory for the group examples. -/
def exUsersG : List User :=
  [{ id := 1, encryptionKey := exKey }, { id := 2, encryptionKey := List.replicate 32 9 }]

/-- A two-member group, the sender among the members. -/
def exGroup : Group :=
  { id := 5, members := [1, 2], admins := [1], lastActivity := 0
    messageCount := 0, memberCount := 2 }

/-- The state before the concrete group send. -/
def exState : ChatState := { messages := [], groups := [exGroup] }

/-- C4 fails on the code: the group route assigns the per-member entry
array to `encryptedContent`, but the schema it saves against
(`src/unnamed/part_012`) declares that field `String, required`, and
Mongoose's string cast rejects arrays — `message.save()` throws, the route
answers 500, and no group message is ever persisted.  Every call of the
embedded route errors, and the concrete two-member send fails with the
save error, so the successful send the claim speaks of is unreachable. -/
theorem sendGroup_save_always_fails :
    (∀ st users senderId gid content isSD sdt now ivf newId,
      ∃ e, sendGroup st users senderId gid content isSD sdt now ivf newId =
        .error e) ∧
    sendGroup exState exUsersG 1 5 [9, 8] false 0 30 (fun _ => exIv) 200 =
      .error .serverError := by
  constructor
  · intro st users senderId gid content isSD sdt now ivf newId
    cases hg : findGroup st.groups gid with
    | none => exact ⟨.notFound, by simp [sendGroup, hg]⟩
    | some g =>
      cases hb : buildGroupPayload users g.members content ivf 0 with
      | none => exact ⟨.serverError, by simp [sendGroup, hg, hb]⟩
      | some entries =>
        exact ⟨.serverError, by simp [sendGroup, hg, hb, saveMessage]⟩
  · rfl

end ChatApp
